import Mathlib

/-!
# Spectral filter bank of `src/components/SpectralModule.jsx`

A shallow embedding of the spectrum generator and of the three smoothing
filters (`kalmanFilter`, `gaussianFilter`, `medianFilter`) with their dispatcher
`applyFilter`.

Numbers are elements of a linear ordered field `α`: exact arithmetic, without
the rounding of IEEE doubles.  What is proved of the order and of the length
of sequences does not depend on rounding; what is proved of the values of
`gaussianFilter` is a statement over exact arithmetic, and `gaussianFilter64`
gives the same lines of the source in binary64 arithmetic.  `Math.exp`,
`Math.sin` and `Math.random` are parameters of the definitions that use them,
so that every definition can be evaluated, e.g. over `ℚ`.  Arrays are lists.
-/

namespace SpectralModule

/-- A JavaScript value as it can occur in the arrays handled by the filters:
a number, `undefined` (what reading an array past its end gives), or `nan`.
`nan` is the result of arithmetic on `undefined`; the infinities that a
division by zero would give are folded into it (no function of the module
computes with the result of a division). -/
inductive JSVal (α : Type) where
  | num (x : α)
  | undefined
  | nan
  deriving DecidableEq, Repr

/-- The error kind of the specification (section 7).  The source has no `throw`
statement, so no definition below ever builds a value of this type. -/
inductive JSError where
  | InvalidArgument
  deriving DecidableEq, Repr

namespace JSVal

variable {α : Type} [LinearOrderedField α]

/-- JavaScript `a + b` on the values above. -/
def add : JSVal α → JSVal α → JSVal α
  | num a, num b => num (a + b)
  | _, _ => nan

/-- JavaScript `a - b`. -/
def sub : JSVal α → JSVal α → JSVal α
  | num a, num b => num (a - b)
  | _, _ => nan

/-- JavaScript `a * b`. -/
def mul : JSVal α → JSVal α → JSVal α
  | num a, num b => num (a * b)
  | _, _ => nan

/-- JavaScript `a / b`; a zero divisor gives a non-finite result. -/
def div : JSVal α → JSVal α → JSVal α
  | num a, num b => if b = 0 then nan else num (a / b)
  | _, _ => nan

/-- The read `xs[i]` on an array of numbers: `undefined` past the end. -/
def index (xs : List α) (i : Nat) : JSVal α :=
  match xs[i]? with
  | some x => num x
  | none => undefined

/-- The read `xs[i]` on an array of values: `undefined` past the end. -/
def indexVal (xs : List (JSVal α)) (i : Nat) : JSVal α :=
  match xs[i]? with
  | some v => v
  | none => undefined

end JSVal

open JSVal

variable {α : Type} [LinearOrderedField α]

/-- The statement `Math.max(0, i - r)` for an index `i`: the subtraction is
done on integers and the result is an index again. -/
def windowStart (i r : Nat) : Nat :=
  Int.toNat (max 0 ((i : Int) - (r : Int)))

/-- The method `data.slice(start, stop)` for non-negative bounds. -/
def slice (data : List α) (start stop : Nat) : List α :=
  (data.take stop).drop start

/-- The call `xs.sort((a, b) => a - b)` on numbers: the ascending stable sort. -/
def sortAscending (xs : List α) : List α :=
  xs.insertionSort (fun a b => a ≤ b)

/-- One pass of the loop body of `kalmanFilter`:
`filtered.push(filtered[i-1] + kalmanGain * (data[i] - filtered[i-1]))`. -/
def kalmanStep (data : List α) (kalmanGain : α) (filtered : List (JSVal α)) (i : Nat) :
    List (JSVal α) :=
  filtered ++ [add (indexVal filtered (i - 1))
    (mul (num kalmanGain) (sub (index data i) (indexVal filtered (i - 1))))]

/-- Source lines 85-92.  The loop `for (let i = 1; i < data.length; i++)` runs
its body for `i = 1, ..., data.length - 1` in this order. -/
def kalmanFilter (data : List α) : Except JSError (List (JSVal α)) :=
  let filtered : List (JSVal α) := [index data 0]
  let kalmanGain : α := 0.75
  Except.ok ((List.range' 1 (data.length - 1)).foldl (kalmanStep data kalmanGain) filtered)

/-- The weight `Math.exp(-(i - j)**2 / (2 * sigma**2))`, read as the
specification reads it: minus the squared index distance, over `2 * sigma^2`.
The proofs below use only that the weight is positive, which does not depend
on where the minus sign binds. -/
def gaussianWeight (exp : α → α) (sigma : α) (i j : Nat) : α :=
  exp (-(((i : α) - (j : α)) ^ 2) / (2 * sigma ^ 2))

/-- The inner loop of `gaussianFilter` at index `i`: the pair `(sum, weightSum)`
after `j` has run from `Math.max(0, i - windowSize)` up to (excluding)
`Math.min(data.length, i + windowSize + 1)`. -/
def gaussianAccumulate (exp : α → α) (data : List α) (i : Nat) : JSVal α × α :=
  let windowSize : Nat := 5
  let sigma : α := 1
  let lo := windowStart i windowSize
  let hi := min data.length (i + windowSize + 1)
  (List.range' lo (hi - lo)).foldl
    (fun acc j =>
      let weight := gaussianWeight exp sigma i j
      (add acc.1 (mul (index data j) (num weight)), acc.2 + weight))
    (num 0, 0)

/-- Source lines 94-107, in exact arithmetic. -/
def gaussianFilter (exp : α → α) (data : List α) : Except JSError (List (JSVal α)) :=
  Except.ok (data.mapIdx fun i _ =>
    let acc := gaussianAccumulate exp data i
    div acc.1 (num acc.2))

/-- The sorted window of `medianFilter` at index `i`:
`data.slice(Math.max(0, i - 2), Math.min(data.length, i + 2 + 1))`, sorted;
`2` is `Math.floor(windowSize/2)` for `windowSize = 5`. -/
def medianWindow (data : List α) (i : Nat) : List α :=
  let windowSize : Nat := 5
  sortAscending (slice data (windowStart i (windowSize / 2))
    (min data.length (i + windowSize / 2 + 1)))

/-- Source lines 109-118. -/
def medianFilter (data : List α) : Except JSError (List (JSVal α)) :=
  Except.ok (data.mapIdx fun i _ =>
    let window := medianWindow data i
    index window (window.length / 2))

/-- Source lines 72-83: the `switch` on the selector, whose `default` branch
returns the input array. -/
def applyFilter (exp : α → α) (data : List α) (filterType : String) :
    Except JSError (List (JSVal α)) :=
  if filterType = "kalman" then kalmanFilter data
  else if filterType = "gaussian" then gaussianFilter exp data
  else if filterType = "median" then medianFilter data
  else Except.ok (data.map num)

/-- The wavelength axis `Array.from({ length: 100 }, (_, i) => 300 + i * 7)`:
300, 307, ..., 993 (the comment of line 35 says "from 300 to 1000 nm"; no
sample is at 1000). -/
def wavelengths : List α :=
  (List.range 100).map fun i => 300 + (i : α) * 7

/-- Source lines 39-52: the raw intensities.  The `k`-th sample draws the
`k`-th value `random k` of the random source (one `Math.random()` call per
sample, in index order). -/
def generateIntensities (exp sin : α → α) (random : Nat → α) (spectrumType : String) :
    List α :=
  if spectrumType = "emission" then
    (wavelengths : List α).mapIdx fun k w =>
      let value := ([350, 450, 550, 650, 750] : List α).foldl
        (fun value peak => value + 100 * exp (-((w - peak) ^ 2) / (2 * 100))) 0
      value + random k * 5
  else if spectrumType = "absorption" then
    (wavelengths : List α).mapIdx fun k w =>
      100 - (100 * exp (-((w - 550) ^ 2) / (2 * 100))) + random k * 5
  else
    (wavelengths : List α).mapIdx fun k w =>
      50 + 30 * sin (0.1 * w) + random k * 3

/-- The numeric content of the object handed to `setChartData`, with the
colour of the curve (the text label is presentation only and is left out). -/
structure ChartData (α : Type) where
  labels : List α
  data : List (JSVal α)
  borderColor : String

/-- Source lines 34-70, with the state variables `spectrumType` and
`filterAlgorithm` as arguments and the chart data as result. -/
def generateSampleData (exp sin : α → α) (random : Nat → α)
    (spectrumType filterAlgorithm : String) : Except JSError (ChartData α) :=
  let intensities := generateIntensities exp sin random spectrumType
  match applyFilter exp intensities filterAlgorithm with
  | Except.error e => Except.error e
  | Except.ok filteredIntensities =>
    Except.ok ⟨wavelengths, filteredIntensities,
      if spectrumType = "emission" then "rgb(255, 99, 132)"
      else if spectrumType = "absorption" then "rgb(53, 162, 235)"
      else "rgb(75, 192, 192)"⟩

/-! ## The Gaussian filter in IEEE binary64 arithmetic

The definitions above compute in exact arithmetic.  The source computes in
doubles: every arithmetic operation returns the double nearest to the exact
result (ties to even), and a result of magnitude `2^1024` or more is an
infinity.  The definitions below follow lines 94-107 with that arithmetic. -/

/-- A double: a finite value, given by the rational number it stands for (the
sign of a zero is not tracked), an infinity with its sign, or NaN. -/
inductive F64 where
  | fin (q : ℚ)
  | inf (negative : Bool)
  | nan
  deriving DecidableEq, Repr

namespace F64

/-- The power `2^e` for an integer exponent. -/
def twoPow (e : Int) : ℚ :=
  if 0 ≤ e then ((2 ^ e.toNat : Nat) : ℚ) else 1 / ((2 ^ (-e).toNat : Nat) : ℚ)

/-- Halving `n` until it is below 2, at most `fuel` times: the number of
halvings. -/
def log2Aux : Nat → Nat → Nat
  | 0, _ => 0
  | fuel + 1, n => if n < 2 then 0 else log2Aux fuel (n / 2) + 1

/-- The binary logarithm of a natural number, rounded down (`0` for `0`). -/
def log2 (n : Nat) : Nat := log2Aux n n

/-- The exponent of a positive rational `a`: the integer `e` with
`2^e <= a < 2^(e+1)`. -/
def floorLog2 (a : ℚ) : Int :=
  let e0 : Int := (log2 a.num.natAbs : Int) - (log2 a.den : Int)
  if twoPow e0 ≤ a then e0 else e0 - 1

/-- The integer nearest to `t >= 0`, a tie going to the even neighbour. -/
def roundHalfEven (t : ℚ) : Int :=
  let f := t.floor
  let r := t - f
  if r < 1 / 2 then f
  else if 1 / 2 < r then f + 1
  else if f % 2 = 0 then f else f + 1

/-- Rounding of an exact result to binary64, round-to-nearest-even: 53
significant bits, least exponent `-1022` (below it the spacing stays
`2^-1074`), overflow to an infinity from `2^1024` on. -/
def round (q : ℚ) : F64 :=
  if q = 0 then fin 0
  else
    let a := |q|
    let e : Int := max (floorLog2 a) (-1022)
    let ulp := twoPow (e - 52)
    let r := (roundHalfEven (a / ulp) : ℚ) * ulp
    if twoPow 1024 ≤ r then inf (decide (q < 0))
    else fin (if q < 0 then -r else r)

/-- The double of an array index. -/
def ofNat (n : Nat) : F64 := round (n : ℚ)

/-- JavaScript `-a` on doubles. -/
def neg : F64 → F64
  | fin a => fin (-a)
  | inf s => inf (!s)
  | nan => nan

/-- JavaScript `a + b` on doubles. -/
def add : F64 → F64 → F64
  | fin a, fin b => round (a + b)
  | fin _, inf s => inf s
  | inf s, fin _ => inf s
  | inf s, inf t => if s = t then inf s else nan
  | _, _ => nan

/-- JavaScript `a - b` on doubles. -/
def sub (a b : F64) : F64 := add a (neg b)

/-- JavaScript `a * b` on doubles. -/
def mul : F64 → F64 → F64
  | fin a, fin b => round (a * b)
  | fin a, inf s => if a = 0 then nan else inf (xor s (decide (a < 0)))
  | inf s, fin b => if b = 0 then nan else inf (xor s (decide (b < 0)))
  | inf s, inf t => inf (xor s t)
  | _, _ => nan

/-- JavaScript `a ** 2` on doubles: the rounded product `a * a` (exact on the
index distances the filter squares). -/
def sq (a : F64) : F64 := mul a a

/-- JavaScript `a / b` on doubles; a zero divisor counts as `+0`. -/
def div : F64 → F64 → F64
  | fin a, fin b =>
    if b = 0 then (if a = 0 then nan else inf (decide (a < 0))) else round (a / b)
  | fin _, inf _ => fin 0
  | inf s, fin b => inf (xor s (decide (b < 0)))
  | _, _ => nan

/-- JavaScript `a <= b` on doubles (false as soon as one side is NaN). -/
def le : F64 → F64 → Bool
  | fin a, fin b => decide (a ≤ b)
  | fin _, inf s => !s
  | inf s, fin _ => s
  | inf s, inf t => s || !t
  | _, _ => false

/-- The Taylor polynomial of degree 80 of the exponential, in Horner form. -/
def expTaylor (x : ℚ) : ℚ :=
  (List.range 80).foldr (fun k acc => 1 + x / ((k : ℚ) + 1) * acc) 1

/-- A stand-in for `Math.exp`, whose accuracy ECMAScript leaves to the engine:
the double nearest to the Taylor polynomial above.  For `|x| <= 12.5`, the
arguments a window of radius 5 produces, the polynomial is within `10^-25` of
the exponential, so the value is the double nearest to it, which is what
`Math.exp` returns there (`Math.exp(-0.5) = 0.6065306597126334`, see
`expNearest_values`). -/
def expNearest : F64 → F64
  | fin q => round (expTaylor q)
  | inf true => fin 0
  | inf false => inf false
  | nan => nan

/-- The read `xs[i]` in an arithmetic expression: `undefined`, read past the
end, becomes NaN there. -/
def index (xs : List F64) (i : Nat) : F64 :=
  match xs[i]? with
  | some v => v
  | none => nan

end F64

/-- The weight `Math.exp(-(i - j)**2 / (2 * sigma**2))` in doubles, the minus
read as in `gaussianWeight`. -/
def gaussianWeight64 (exp : F64 → F64) (sigma : F64) (i j : Nat) : F64 :=
  exp (F64.div (F64.neg (F64.sq (F64.sub (F64.ofNat i) (F64.ofNat j))))
    (F64.mul (F64.ofNat 2) (F64.sq sigma)))

/-- The inner loop of `gaussianFilter` at index `i` in doubles: the pair
`(sum, weightSum)` after the loop of lines 100-104. -/
def gaussianAccumulate64 (exp : F64 → F64) (data : List F64) (i : Nat) : F64 × F64 :=
  let windowSize : Nat := 5
  let sigma : F64 := F64.ofNat 1
  let lo := windowStart i windowSize
  let hi := min data.length (i + windowSize + 1)
  (List.range' lo (hi - lo)).foldl
    (fun acc j =>
      let weight := gaussianWeight64 exp sigma i j
      (F64.add acc.1 (F64.mul (F64.index data j) weight), F64.add acc.2 weight))
    (F64.ofNat 0, F64.ofNat 0)

deriving instance DecidableEq for Except

/-- Source lines 94-107 in doubles. -/
def gaussianFilter64 (exp : F64 → F64) (data : List F64) :
    Except JSError (List F64) :=
  Except.ok (data.mapIdx fun i _ =>
    let acc := gaussianAccumulate64 exp data i
    F64.div acc.1 acc.2)

/-! ## Auxiliary facts on array reads and on the window bounds -/

theorem index_of_getElem? {β : Type} {xs : List β} {i : Nat} {x : β} (h : xs[i]? = some x) :
    index xs i = num x := by
  simp [index, h]

theorem indexVal_of_getElem? {β : Type} {xs : List (JSVal β)} {i : Nat} {v : JSVal β}
    (h : xs[i]? = some v) : indexVal xs i = v := by
  simp [indexVal, h]

theorem mem_slice_iff {β : Type} {data : List β} {lo hi : Nat} {x : β} :
    x ∈ slice data lo hi ↔ ∃ j, lo ≤ j ∧ j < hi ∧ data[j]? = some x := by
  unfold slice
  rw [List.mem_iff_getElem?]
  constructor
  · rintro ⟨n, hn⟩
    rw [List.getElem?_drop, List.getElem?_take] at hn
    split at hn
    · exact ⟨lo + n, by omega, by omega, hn⟩
    · exact absurd hn (by simp)
  · rintro ⟨j, h1, h2, hj⟩
    refine ⟨j - lo, ?_⟩
    rw [List.getElem?_drop, List.getElem?_take, if_pos (by omega)]
    rw [show lo + (j - lo) = j by omega]
    exact hj

theorem length_slice {β : Type} (data : List β) (lo hi : Nat) :
    (slice data lo hi).length = min hi data.length - lo := by
  simp [slice]

theorem exists_min_max (W : List α) (hW : W ≠ []) :
    ∃ m ∈ W, ∃ M ∈ W, ∀ x ∈ W, m ≤ x ∧ x ≤ M := by
  induction W with
  | nil => exact absurd rfl hW
  | cons a t ih =>
    rcases t with _ | ⟨b, t⟩
    · exact ⟨a, by simp, a, by simp, by simp⟩
    · obtain ⟨m, hm, M, hM, hall⟩ := ih (by simp)
      refine ⟨min a m, ?_, max a M, ?_, ?_⟩
      · rcases min_choice a m with h | h
        · simp [h]
        · rw [h]
          exact List.mem_cons_of_mem _ hm
      · rcases max_choice a M with h | h
        · simp [h]
        · rw [h]
          exact List.mem_cons_of_mem _ hM
      · intro x hx
        rcases List.mem_cons.1 hx with rfl | hx
        · exact ⟨min_le_left _ _, le_max_left _ _⟩
        · exact ⟨le_trans (min_le_right _ _) (hall x hx).1,
            le_trans (hall x hx).2 (le_max_right _ _)⟩

theorem windowStart_eq (i r : Nat) : windowStart i r = i - r := by
  unfold windowStart
  omega

/-! ## The exponential ("Kalman") filter -/

/-- The state of the loop of `kalmanFilter` after `n` passes, for an input with
more than `n` samples: `n + 1` numbers that start with `data[0]` and obey the
recursion. -/
theorem kalman_loop (data : List α) (g : α) (n : Nat) (hn : n + 1 ≤ data.length) :
    ∃ vals : List α,
      (List.range' 1 n).foldl (kalmanStep data g) [index data 0] = vals.map num ∧
      vals.length = n + 1 ∧ vals[0]? = data[0]? ∧
      ∀ i, 1 ≤ i → i ≤ n → ∃ p x, vals[i - 1]? = some p ∧ data[i]? = some x ∧
        vals[i]? = some (p + g * (x - p)) := by
  induction n with
  | zero =>
    obtain ⟨x, hx⟩ : ∃ x, data[0]? = some x :=
      ⟨data[0], List.getElem?_eq_getElem (by omega)⟩
    refine ⟨[x], ?_, rfl, ?_, ?_⟩
    · simp [index_of_getElem? hx]
    · simp [hx]
    · intro i h1 h0
      omega
  | succ n ih =>
    obtain ⟨vals, hfold, hlen, h0, hrec⟩ := ih (by omega)
    obtain ⟨x, hx⟩ : ∃ x, data[1 + n]? = some x :=
      ⟨data[1 + n], List.getElem?_eq_getElem (by omega)⟩
    obtain ⟨p, hp⟩ : ∃ p, vals[n]? = some p :=
      ⟨vals[n], List.getElem?_eq_getElem (by omega)⟩
    have hpv : indexVal (vals.map num) (1 + n - 1) = num p := by
      apply indexVal_of_getElem?
      simp [hp]
    refine ⟨vals ++ [p + g * (x - p)], ?_, ?_, ?_, ?_⟩
    · rw [List.range'_1_concat, List.foldl_append, hfold]
      simp only [List.foldl_cons, List.foldl_nil, kalmanStep, hpv, index_of_getElem? hx]
      simp [add, mul, sub]
    · simp [hlen]
    · rw [List.getElem?_append_left (by omega), h0]
    · intro i h1 hi
      rcases Nat.lt_or_ge i (n + 1) with hlt | hge
      · obtain ⟨q, y, hq, hy, hqy⟩ := hrec i h1 (by omega)
        refine ⟨q, y, ?_, hy, ?_⟩
        · rw [List.getElem?_append_left (by omega), hq]
        · rw [List.getElem?_append_left (by omega), hqy]
      · have hi' : i = n + 1 := by omega
        subst hi'
        refine ⟨p, x, ?_, ?_, ?_⟩
        · rw [List.getElem?_append_left (by simp; omega)]
          simpa using hp
        · simpa [Nat.add_comm] using hx
        · rw [List.getElem?_append_right (by omega)]
          simp [hlen]

/-- What `kalmanFilter` returns on a non-empty input: as many numbers as
samples, the first one `data[0]`, each later one obtained from its predecessor
by the recursion with gain `0.75`. -/
theorem kalmanFilter_spec (data : List α) (hne : data ≠ []) :
    ∃ filtered : List α, kalmanFilter data = Except.ok (filtered.map num) ∧
      filtered.length = data.length ∧ filtered[0]? = data[0]? ∧
      ∀ i, 1 ≤ i → i < data.length → ∃ p x, filtered[i - 1]? = some p ∧
        data[i]? = some x ∧ filtered[i]? = some (p + 0.75 * (x - p)) := by
  have hpos : 0 < data.length := List.length_pos.2 hne
  obtain ⟨vals, hfold, hlen, h0, hrec⟩ :=
    kalman_loop data 0.75 (data.length - 1) (by omega)
  refine ⟨vals, ?_, by omega, h0, ?_⟩
  · simp only [kalmanFilter, hfold]
  · intro i h1 hi
    exact hrec i h1 (by omega)

/-! ## The Gaussian kernel filter -/

/-- The loop of `gaussianFilter` over indices `js` that are all in range and
whose samples lie in `[a, b]`: both accumulators stay numbers, the weight sum
grows, and the weighted sum gained lies between `a` and `b` times the weight
gained. -/
theorem gaussian_loop (exp : α → α) (hexp : ∀ x, 0 < exp x) (data : List α) (i : Nat)
    (a b : α) (js : List Nat)
    (hjs : ∀ j ∈ js, ∃ x, data[j]? = some x ∧ a ≤ x ∧ x ≤ b) (s0 ws0 : α) :
    ∃ s ws, js.foldl
        (fun acc j =>
          let weight := gaussianWeight exp 1 i j
          (add acc.1 (mul (index data j) (num weight)), acc.2 + weight))
        (num s0, ws0) = (num s, ws) ∧
      ws0 ≤ ws ∧ (js ≠ [] → ws0 < ws) ∧
      a * (ws - ws0) ≤ s - s0 ∧ s - s0 ≤ b * (ws - ws0) := by
  induction js generalizing s0 ws0 with
  | nil => exact ⟨s0, ws0, rfl, le_refl _, fun h => absurd rfl h, by simp, by simp⟩
  | cons j js ih =>
    obtain ⟨x, hx, hax, hxb⟩ := hjs j (by simp)
    have hw : 0 < gaussianWeight exp 1 i j := hexp _
    obtain ⟨s, ws, hfold, hle, -, hlo, hhi⟩ :=
      ih (fun k hk => hjs k (List.mem_cons_of_mem _ hk))
        (s0 + x * gaussianWeight exp 1 i j) (ws0 + gaussianWeight exp 1 i j)
    refine ⟨s, ws, ?_, by linarith, fun _ => by linarith, ?_, ?_⟩
    · simp only [List.foldl_cons, index_of_getElem? hx, add, mul]
      exact hfold
    · have := mul_le_mul_of_nonneg_right hax hw.le
      linarith
    · have := mul_le_mul_of_nonneg_right hxb hw.le
      linarith

/-- The value `gaussianFilter` computes at an index `i` of the input, when the
samples of the window of `i` lie in `[a, b]`: the divisor is positive and the
quotient is a number of `[a, b]`. -/
theorem gaussian_at (exp : α → α) (hexp : ∀ x, 0 < exp x) (data : List α) (i : Nat)
    (hi : i < data.length) (a b : α)
    (hab : ∀ x ∈ slice data (i - 5) (min data.length (i + 6)), a ≤ x ∧ x ≤ b) :
    0 < (gaussianAccumulate exp data i).2 ∧
      ∃ y, div (gaussianAccumulate exp data i).1 (num (gaussianAccumulate exp data i).2)
        = num y ∧ a ≤ y ∧ y ≤ b := by
  have hjs : ∀ j ∈ List.range' (i - 5) (min data.length (i + 5 + 1) - (i - 5)),
      ∃ x, data[j]? = some x ∧ a ≤ x ∧ x ≤ b := by
    intro j hj
    rw [List.mem_range'_1] at hj
    have hjlen : j < data.length := by omega
    refine ⟨data[j], List.getElem?_eq_getElem hjlen, ?_⟩
    exact hab _ (mem_slice_iff.2 ⟨j, by omega, by omega, List.getElem?_eq_getElem hjlen⟩)
  obtain ⟨s, ws, hfold, -, hpos, hlo, hhi⟩ :=
    gaussian_loop exp hexp data i a b _ hjs 0 0
  have hne : List.range' (i - 5) (min data.length (i + 5 + 1) - (i - 5)) ≠ [] := by
    intro h
    have := congrArg List.length h
    simp at this
    omega
  have hws : 0 < ws := hpos hne
  have hacc : gaussianAccumulate exp data i = (num s, ws) := by
    simp only [gaussianAccumulate, windowStart_eq]
    exact hfold
  rw [hacc]
  refine ⟨hws, s / ws, ?_, ?_, ?_⟩
  · simp [div, hws.ne.symm]
  · rw [le_div_iff₀ hws]
    linarith
  · rw [div_le_iff₀ hws]
    linarith

/-- On a constant input the Gaussian filter returns its input: the shared core
of the normalisation facts. -/
theorem gaussianFilter_const_aux (exp : α → α) (hexp : ∀ x, 0 < exp x) (c : α) (N : Nat) :
    gaussianFilter exp (List.replicate N c) = Except.ok (List.replicate N (num c)) := by
  unfold gaussianFilter
  congr 1
  apply List.ext_getElem?
  intro n
  rw [List.getElem?_mapIdx, List.getElem?_replicate, List.getElem?_replicate]
  split
  · rename_i hn
    have hab : ∀ x ∈ slice (List.replicate N c) (n - 5)
        (min (List.replicate N c).length (n + 6)), c ≤ x ∧ x ≤ c := by
      intro x hx
      have hx' : x ∈ List.replicate N c :=
        List.mem_of_mem_take (List.mem_of_mem_drop hx)
      rw [List.eq_of_mem_replicate hx']
      exact ⟨le_refl _, le_refl _⟩
    obtain ⟨-, y, hy, h1, h2⟩ :=
      gaussian_at exp hexp (List.replicate N c) n (by simpa using hn) c c hab
    simp only [Option.map_some', hy, le_antisymm h2 h1]
  · rfl

/-! ## The median filter -/

theorem medianWindow_eq (data : List α) (i : Nat) :
    medianWindow data i
      = sortAscending (slice data (i - 2) (min data.length (i + 3))) := by
  simp only [medianWindow, windowStart_eq]

theorem length_medianWindow (data : List α) (i : Nat) :
    (medianWindow data i).length = min (i + 3) data.length - (i - 2) := by
  rw [medianWindow_eq, sortAscending, List.length_insertionSort, length_slice]
  congr 1
  omega

theorem sorted_medianWindow (data : List α) (i : Nat) :
    (medianWindow data i).Sorted (fun a b => a ≤ b) := by
  rw [medianWindow_eq]
  exact List.sorted_insertionSort _ _

theorem medianFilter_getElem? (data : List α) (i : Nat) (hi : i < data.length) :
    ∃ out, medianFilter data = Except.ok out ∧
      out[i]? = some (index (medianWindow data i) ((medianWindow data i).length / 2)) := by
  refine ⟨_, rfl, ?_⟩
  rw [List.getElem?_mapIdx, List.getElem?_eq_getElem hi]
  rfl

/-! ## The dispatcher -/

theorem applyFilter_ok (exp : α → α) (data : List α) (filterType : String) :
    ∃ out, applyFilter exp data filterType = Except.ok out := by
  unfold applyFilter
  split
  · exact ⟨_, rfl⟩
  · split
    · exact ⟨_, rfl⟩
    · split
      · exact ⟨_, rfl⟩
      · exact ⟨_, rfl⟩

/-! ## The claims -/

/-- C1: for each of the selectors 'kalman', 'gaussian', 'median' and 'none' and
every non-empty sample sequence, `applyFilter` returns a sequence as long as
its input. -/
theorem applyFilter_length (exp : α → α) (data : List α) (filterType : String)
    (hsel : filterType ∈ ["kalman", "gaussian", "median", "none"]) (hne : data ≠ []) :
    ∃ out, applyFilter exp data filterType = Except.ok out ∧ out.length = data.length := by
  simp only [List.mem_cons, List.mem_singleton, List.not_mem_nil, or_false] at hsel
  rcases hsel with rfl | rfl | rfl | rfl
  · obtain ⟨filtered, hk, hlen, -⟩ := kalmanFilter_spec data hne
    exact ⟨_, by simpa [applyFilter] using hk, by simpa using hlen⟩
  · have h : applyFilter exp data "gaussian" = gaussianFilter exp data := by
      simp [applyFilter]
    exact ⟨_, h.trans rfl, by simp⟩
  · have h : applyFilter exp data "median" = medianFilter data := by
      simp [applyFilter]
    exact ⟨_, h.trans rfl, by simp⟩
  · have h : applyFilter exp data "none" = Except.ok (data.map num) := by
      simp [applyFilter]
    exact ⟨_, h, by simp⟩

/-- Instance of C1: the Gaussian filter, with the real exponential, on three
samples. -/
theorem applyFilter_length_witness :
    ("gaussian" ∈ ["kalman", "gaussian", "median", "none"] ∧ ([3, 1, 2] : List ℝ) ≠ []) ∧
      ∃ out, applyFilter Real.exp ([3, 1, 2] : List ℝ) "gaussian" = Except.ok out ∧
        out.length = ([3, 1, 2] : List ℝ).length :=
  ⟨⟨by simp, by simp⟩, applyFilter_length Real.exp _ _ (by simp) (by simp)⟩

/-- C2: on a non-empty sample sequence `kalmanFilter` returns numbers
`filtered` with `filtered[0] = samples[0]` and, for `1 <= i < N`,
`filtered[i] = filtered[i-1] + 0.75 * (samples[i] - filtered[i-1])`. -/
theorem kalmanFilter_recurrence (data : List α) (hne : data ≠ []) :
    ∃ filtered : List α, kalmanFilter data = Except.ok (filtered.map num) ∧
      filtered.length = data.length ∧ filtered[0]? = data[0]? ∧
      ∀ i, 1 ≤ i → i < data.length → ∃ p x, filtered[i - 1]? = some p ∧
        data[i]? = some x ∧ filtered[i]? = some (p + 0.75 * (x - p)) :=
  kalmanFilter_spec data hne

/-- Instance of C2 on three rational samples. -/
theorem kalmanFilter_recurrence_witness :
    ([4, 8, 0] : List ℚ) ≠ [] ∧
      ∃ filtered : List ℚ, kalmanFilter [4, 8, 0] = Except.ok (filtered.map num) ∧
        filtered.length = ([4, 8, 0] : List ℚ).length ∧
        filtered[0]? = ([4, 8, 0] : List ℚ)[0]? ∧
        ∀ i, 1 ≤ i → i < ([4, 8, 0] : List ℚ).length → ∃ p x, filtered[i - 1]? = some p ∧
          ([4, 8, 0] : List ℚ)[i]? = some x ∧ filtered[i]? = some (p + 0.75 * (x - p)) :=
  ⟨by simp, kalmanFilter_recurrence _ (by simp)⟩

/-- Checks of `F64.round` on known doubles: 3 and 0.1, the overflow threshold
`2^1024 - 2^970` and the value just below it, half the least subnormal. -/
theorem round_values :
    F64.round 3 = F64.fin 3 ∧
      F64.round (1 / 10) = F64.fin (3602879701896397 / 2 ^ 55) ∧
      F64.round (2 ^ 1024 - 2 ^ 970) = F64.inf false ∧
      F64.round (2 ^ 1024 - 2 ^ 970 - 1) = F64.fin (2 ^ 1024 - 2 ^ 971) ∧
      F64.round (-(2 ^ 1024)) = F64.inf true ∧
      F64.round (1 / 2 ^ 1075) = F64.fin 0 ∧
      F64.round (3 / 2 ^ 1075) = F64.fin (2 / 2 ^ 1074) := by
  decide!

/-- The six weights of a window of radius 5 under `expNearest`, as doubles:
`1`, `0.6065306597126334`, `0.1353352832366127`, `0.011108996538242306`,
`0.00033546262790251185`, `0.000003726653172078671`. -/
theorem expNearest_values :
    (List.range 6).map (fun d => gaussianWeight64 F64.expNearest (F64.ofNat 1) 0 d)
      = [F64.fin 1, F64.fin (2731571253070597 / 2 ^ 52),
          F64.fin (1218991862308979 / 2 ^ 53), F64.fin (6403900501771287 / 2 ^ 59),
          F64.fin (6188193243211693 / 2 ^ 64), F64.fin (549956938534505 / 2 ^ 67)] := by
  decide!

/-- C3, refuted as stated, in the doubles the source computes with.
Overflow: on the two samples `3 * 2^1022` (1.348e308, a double) the sum
`x + x * Math.exp(-0.5)` exceeds the largest double, and both outputs are
`Infinity`, above the maximum of the window (any value of `Math.exp(-0.5)`
above 0.34 overflows alike).  Rounding: on seven samples equal
to 3 the output is `3 + 2^-51` at index 0 and `3 - 2^-51` at indices 5 and 6,
outside the range `[3, 3]` of the window. -/
theorem gaussianFilter_range_counterexample :
    gaussianFilter64 F64.expNearest [F64.fin (3 * 2 ^ 1022), F64.fin (3 * 2 ^ 1022)]
        = Except.ok [F64.inf false, F64.inf false] ∧
      F64.le (F64.inf false) (F64.fin (3 * 2 ^ 1022)) = false ∧
      gaussianFilter64 F64.expNearest (List.replicate 7 (F64.fin 3))
        = Except.ok [F64.fin (3 + 1 / 2 ^ 51), F64.fin 3, F64.fin 3, F64.fin 3, F64.fin 3,
            F64.fin (3 - 1 / 2 ^ 51), F64.fin (3 - 1 / 2 ^ 51)] ∧
      F64.le (F64.fin (3 + 1 / 2 ^ 51)) (F64.fin 3) = false ∧
      F64.le (F64.fin 3) (F64.fin (3 - 1 / 2 ^ 51)) = false := by
  decide!

/-- C3, amended: over exact (real) arithmetic, at every index `i` of the input
the weight sum `gaussianFilter` divides by is strictly positive and the output
at `i` is a number between the minimum `m` and the maximum `M` of the samples
at the indices `[max(0, i-5), min(N, i+6))`.  `exp` stands for `Math.exp`, of
which only positivity is used. -/
theorem gaussianFilter_within_window (exp : α → α) (hexp : ∀ x, 0 < exp x)
    (data : List α) (i : Nat) (hi : i < data.length) :
    0 < (gaussianAccumulate exp data i).2 ∧
      ∃ out y, gaussianFilter exp data = Except.ok out ∧ out[i]? = some (num y) ∧
        ∃ m ∈ slice data (i - 5) (min data.length (i + 6)),
        ∃ M ∈ slice data (i - 5) (min data.length (i + 6)),
          (∀ x ∈ slice data (i - 5) (min data.length (i + 6)), m ≤ x ∧ x ≤ M) ∧
            m ≤ y ∧ y ≤ M := by
  have hmem : data[i] ∈ slice data (i - 5) (min data.length (i + 6)) :=
    mem_slice_iff.2 ⟨i, by omega, by omega, List.getElem?_eq_getElem hi⟩
  obtain ⟨m, hm, M, hM, hall⟩ :=
    exists_min_max (slice data (i - 5) (min data.length (i + 6))) (List.ne_nil_of_mem hmem)
  obtain ⟨hpos, y, hy, hmy, hyM⟩ := gaussian_at exp hexp data i hi m M hall
  refine ⟨hpos, _, y, rfl, ?_, m, hm, M, hM, hall, hmy, hyM⟩
  rw [List.getElem?_mapIdx, List.getElem?_eq_getElem hi]
  exact congrArg some hy

/-- Instance of the amended C3 with the real exponential, at index 1 of three
samples. -/
theorem gaussianFilter_within_window_witness :
    ((∀ x : ℝ, 0 < Real.exp x) ∧ 1 < ([2, 7, 4] : List ℝ).length) ∧
      (0 < (gaussianAccumulate Real.exp ([2, 7, 4] : List ℝ) 1).2 ∧
      ∃ out y, gaussianFilter Real.exp ([2, 7, 4] : List ℝ) = Except.ok out ∧
        out[1]? = some (num y) ∧
        ∃ m ∈ slice ([2, 7, 4] : List ℝ) (1 - 5) (min ([2, 7, 4] : List ℝ).length (1 + 6)),
        ∃ M ∈ slice ([2, 7, 4] : List ℝ) (1 - 5) (min ([2, 7, 4] : List ℝ).length (1 + 6)),
          (∀ x ∈ slice ([2, 7, 4] : List ℝ) (1 - 5)
              (min ([2, 7, 4] : List ℝ).length (1 + 6)), m ≤ x ∧ x ≤ M) ∧
            m ≤ y ∧ y ≤ M) :=
  ⟨⟨Real.exp_pos, by simp⟩,
    gaussianFilter_within_window Real.exp Real.exp_pos _ 1 (by simp)⟩

/-- C4: over exact arithmetic, `gaussianFilter` maps the sequence of `c`
repeated `N` times to itself, the truncated windows at both ends included
(for every `N`, the trivial `N = 0` as well as `N >= 1`). -/
theorem gaussianFilter_constant (exp : α → α) (hexp : ∀ x, 0 < exp x) (c : α) (N : Nat) :
    gaussianFilter exp (List.replicate N c) = Except.ok (List.replicate N (num c)) :=
  gaussianFilter_const_aux exp hexp c N

/-- Instance of C4 with the real exponential: seven samples equal to 3. -/
theorem gaussianFilter_constant_witness :
    (∀ x : ℝ, 0 < Real.exp x) ∧
      gaussianFilter Real.exp (List.replicate 7 (3 : ℝ))
        = Except.ok (List.replicate 7 (num 3)) :=
  ⟨Real.exp_pos, gaussianFilter_constant Real.exp Real.exp_pos 3 7⟩

/-- C5: on a monotonically increasing input, at every index `i` with `2 <= i`
and `i + 2 < N` (a full window of five) `medianFilter` outputs the input value
at `i`. -/
theorem medianFilter_monotone_interior (data : List α)
    (hmono : data.Sorted (fun a b => a ≤ b)) (i : Nat) (h2 : 2 ≤ i)
    (hN : i + 2 < data.length) :
    ∃ out x, medianFilter data = Except.ok out ∧ data[i]? = some x ∧
      out[i]? = some (num x) := by
  obtain ⟨out, hout, hi⟩ := medianFilter_getElem? data i (by omega)
  refine ⟨out, data[i], hout, List.getElem?_eq_getElem (by omega), ?_⟩
  rw [hi, length_medianWindow]
  have hsorted : (slice data (i - 2) (min data.length (i + 3))).Sorted (fun a b => a ≤ b) :=
    List.Pairwise.sublist ((List.drop_sublist _ _).trans (List.take_sublist _ _)) hmono
  have hlen : (min (i + 3) data.length - (i - 2)) / 2 = 2 := by omega
  rw [medianWindow_eq, sortAscending, List.Sorted.insertionSort_eq hsorted, hlen]
  congr 1
  apply index_of_getElem?
  unfold slice
  rw [List.getElem?_drop, List.getElem?_take, if_pos (by omega),
    show i - 2 + 2 = i by omega]
  exact List.getElem?_eq_getElem (by omega)

/-- Instance of C5: index 2 of six increasing rational samples. -/
theorem medianFilter_monotone_interior_witness :
    (([1, 2, 4, 8, 16, 32] : List ℚ).Sorted (fun a b => a ≤ b) ∧ 2 ≤ 2 ∧
        2 + 2 < ([1, 2, 4, 8, 16, 32] : List ℚ).length) ∧
      ∃ out x, medianFilter ([1, 2, 4, 8, 16, 32] : List ℚ) = Except.ok out ∧
        ([1, 2, 4, 8, 16, 32] : List ℚ)[2]? = some x ∧ out[2]? = some (num x) :=
  ⟨⟨by simp [List.Sorted]; norm_num, by decide, by simp⟩,
    medianFilter_monotone_interior _ (by simp [List.Sorted]; norm_num) 2 (by decide) (by simp)⟩

/-- C6, refuted as stated: for the samples 1, 2, 3, 4, 5 the window of index 1
is 1, 2, 3, 4 (even length), its two middle elements are 2 and 3, and
`medianFilter` outputs 3 at index 1, not the smaller one 2. -/
theorem medianFilter_lower_median_counterexample :
    medianWindow ([1, 2, 3, 4, 5] : List ℚ) 1 = [1, 2, 3, 4] ∧
      (medianWindow ([1, 2, 3, 4, 5] : List ℚ) 1).length % 2 = 0 ∧
      medianFilter ([1, 2, 3, 4, 5] : List ℚ)
        = Except.ok [num 2, num 3, num 3, num 4, num 4] ∧
      ¬ ∃ out lo hi, medianFilter ([1, 2, 3, 4, 5] : List ℚ) = Except.ok out ∧
          (medianWindow ([1, 2, 3, 4, 5] : List ℚ) 1)[1]? = some lo ∧
          (medianWindow ([1, 2, 3, 4, 5] : List ℚ) 1)[2]? = some hi ∧
          out[1]? = some (num (min lo hi)) := by
  have hw : medianWindow ([1, 2, 3, 4, 5] : List ℚ) 1 = [1, 2, 3, 4] := by
    norm_num [medianWindow_eq, slice, sortAscending, List.insertionSort, List.orderedInsert]
  have hf : medianFilter ([1, 2, 3, 4, 5] : List ℚ)
      = Except.ok [num 2, num 3, num 3, num 4, num 4] := by
    norm_num [medianFilter, medianWindow_eq, slice, sortAscending, List.insertionSort,
      List.orderedInsert, List.mapIdx, List.mapIdx.go, index]
  refine ⟨hw, by rw [hw]; rfl, hf, ?_⟩
  rintro ⟨out, lo, hi, hout, hlo, hhi, h⟩
  rw [hf] at hout
  cases hout
  rw [hw] at hlo hhi
  simp only [List.getElem?_cons_succ, List.getElem?_cons_zero, Option.some.injEq] at hlo hhi h
  subst hlo hhi
  norm_num at h

/-- C6, amended: at an index whose truncated window has even length,
`medianFilter` outputs the element at position `length/2` of the sorted window,
which is the larger of its two middle elements (the upper median). -/
theorem medianFilter_even_window_upper (data : List α) (i : Nat) (hi : i < data.length)
    (heven : (medianWindow data i).length % 2 = 0) :
    ∃ out lo hi, medianFilter data = Except.ok out ∧
      (medianWindow data i)[(medianWindow data i).length / 2 - 1]? = some lo ∧
      (medianWindow data i)[(medianWindow data i).length / 2]? = some hi ∧
      lo ≤ hi ∧ out[i]? = some (num (max lo hi)) := by
  obtain ⟨out, hout, hget⟩ := medianFilter_getElem? data i hi
  have hlen := length_medianWindow data i
  have hpos : 2 ≤ (medianWindow data i).length := by omega
  have h1 : (medianWindow data i).length / 2 - 1 < (medianWindow data i).length := by omega
  have h2 : (medianWindow data i).length / 2 < (medianWindow data i).length := by omega
  have hle : (medianWindow data i)[(medianWindow data i).length / 2 - 1]
      ≤ (medianWindow data i)[(medianWindow data i).length / 2] :=
    List.pairwise_iff_getElem.1 (sorted_medianWindow data i) _ _ h1 h2 (by omega)
  refine ⟨out, _, _, hout, List.getElem?_eq_getElem h1, List.getElem?_eq_getElem h2, hle, ?_⟩
  rw [hget, max_eq_right hle]
  exact congrArg some (index_of_getElem? (List.getElem?_eq_getElem h2))

/-- Instance of the amended C6: index 1 of the samples 5, 1, 4, 2. -/
theorem medianFilter_even_window_upper_witness :
    (1 < ([5, 1, 4, 2] : List ℚ).length ∧
        (medianWindow ([5, 1, 4, 2] : List ℚ) 1).length % 2 = 0) ∧
      ∃ out lo hi, medianFilter ([5, 1, 4, 2] : List ℚ) = Except.ok out ∧
        (medianWindow ([5, 1, 4, 2] : List ℚ) 1)[
          (medianWindow ([5, 1, 4, 2] : List ℚ) 1).length / 2 - 1]? = some lo ∧
        (medianWindow ([5, 1, 4, 2] : List ℚ) 1)[
          (medianWindow ([5, 1, 4, 2] : List ℚ) 1).length / 2]? = some hi ∧
        lo ≤ hi ∧ out[1]? = some (num (max lo hi)) :=
  ⟨⟨by simp, by simp [length_medianWindow]⟩,
    medianFilter_even_window_upper _ 1 (by simp) (by simp [length_medianWindow])⟩

/-- C7, refuted as stated: the selector 'lowpass' is none of the enumerated
values, yet `applyFilter` returns the two samples it was given, not an
`InvalidArgument` error. -/
theorem applyFilter_unrecognised_counterexample :
    "lowpass" ∉ ["kalman", "gaussian", "median", "none"] ∧
      applyFilter Real.exp ([1, 2] : List ℝ) "lowpass" = Except.ok [num 1, num 2] ∧
      applyFilter Real.exp ([1, 2] : List ℝ) "lowpass"
        ≠ Except.error JSError.InvalidArgument := by
  have h : applyFilter Real.exp ([1, 2] : List ℝ) "lowpass" = Except.ok [num 1, num 2] := by
    simp [applyFilter]
  refine ⟨by decide, h, ?_⟩
  rw [h]
  exact fun hc => Except.noConfusion hc

/-- C7, amended: for every selector other than 'kalman', 'gaussian' and
'median' (so for 'none' and for every unrecognised value alike) `applyFilter`
returns its input unchanged; it does not fail. -/
theorem applyFilter_default (exp : α → α) (data : List α) (filterType : String)
    (hk : filterType ≠ "kalman") (hg : filterType ≠ "gaussian")
    (hm : filterType ≠ "median") :
    applyFilter exp data filterType = Except.ok (data.map num) := by
  simp [applyFilter, hk, hg, hm]

/-- Instance of the amended C7 for the selector 'wavelet'. -/
theorem applyFilter_default_witness :
    ("wavelet" ≠ "kalman" ∧ "wavelet" ≠ "gaussian" ∧ "wavelet" ≠ "median") ∧
      applyFilter Real.exp ([6, 5] : List ℝ) "wavelet"
        = Except.ok (([6, 5] : List ℝ).map num) :=
  ⟨⟨by decide, by decide, by decide⟩,
    applyFilter_default Real.exp _ "wavelet" (by decide) (by decide) (by decide)⟩

/-- C8, refuted as stated: on the empty sequence none of the three filters
fails; `kalmanFilter` returns the one-element sequence holding `undefined`,
`gaussianFilter` and `medianFilter` return the empty sequence. -/
theorem filters_empty_counterexample :
    kalmanFilter ([] : List ℝ) = Except.ok [undefined] ∧
      gaussianFilter Real.exp ([] : List ℝ) = Except.ok [] ∧
      medianFilter ([] : List ℝ) = Except.ok [] ∧
      applyFilter Real.exp ([] : List ℝ) "kalman" ≠ Except.error JSError.InvalidArgument ∧
      applyFilter Real.exp ([] : List ℝ) "gaussian" ≠ Except.error JSError.InvalidArgument ∧
      applyFilter Real.exp ([] : List ℝ) "median" ≠ Except.error JSError.InvalidArgument := by
  refine ⟨rfl, rfl, rfl, ?_, ?_, ?_⟩
  · have h : applyFilter Real.exp ([] : List ℝ) "kalman" = Except.ok [undefined] := by
      simp [applyFilter, kalmanFilter, index]
    rw [h]
    exact fun hc => Except.noConfusion hc
  · have h : applyFilter Real.exp ([] : List ℝ) "gaussian" = Except.ok [] := by
      simp [applyFilter, gaussianFilter]
    rw [h]
    exact fun hc => Except.noConfusion hc
  · have h : applyFilter Real.exp ([] : List ℝ) "median" = Except.ok [] := by
      simp [applyFilter, medianFilter]
    rw [h]
    exact fun hc => Except.noConfusion hc

/-- C8, amended: on the empty sequence `gaussianFilter` and `medianFilter`,
called directly or through `applyFilter`, return the empty sequence; no error
is raised. -/
theorem filters_on_empty_input (exp : α → α) :
    gaussianFilter exp ([] : List α) = Except.ok [] ∧
      medianFilter ([] : List α) = Except.ok [] ∧
      applyFilter exp ([] : List α) "gaussian" = Except.ok [] ∧
      applyFilter exp ([] : List α) "median" = Except.ok [] := by
  refine ⟨rfl, rfl, ?_, ?_⟩
  · simp [applyFilter, gaussianFilter]
  · simp [applyFilter, medianFilter]

/-- C9: on a one-element sequence `[x]` each of `kalmanFilter`,
`gaussianFilter` and `medianFilter` returns normally, reads no array element
out of bounds (the result holds no `undefined`), and the result is `[x]`. -/
theorem filters_singleton (exp : α → α) (hexp : ∀ x, 0 < exp x) (x : α) :
    kalmanFilter [x] = Except.ok [num x] ∧
      gaussianFilter exp [x] = Except.ok [num x] ∧
      medianFilter [x] = Except.ok [num x] := by
  refine ⟨?_, ?_, ?_⟩
  · simp [kalmanFilter, index]
  · exact gaussianFilter_const_aux exp hexp x 1
  · simp [medianFilter, medianWindow_eq, slice, sortAscending, index]

/-- Instance of C9 with the real exponential and the sample 42. -/
theorem filters_singleton_witness :
    (∀ x : ℝ, 0 < Real.exp x) ∧
      (kalmanFilter [(42 : ℝ)] = Except.ok [num 42] ∧
      gaussianFilter Real.exp [(42 : ℝ)] = Except.ok [num 42] ∧
      medianFilter [(42 : ℝ)] = Except.ok [num 42]) :=
  ⟨Real.exp_pos, filters_singleton Real.exp Real.exp_pos 42⟩

/-- C10, refuted as stated: the spectrum type 'ultraviolet' is none of the
three archetypes, yet the generator returns chart data, built with the
intensity formula of the interferometric archetype, and no error. -/
theorem generateSampleData_unrecognised_counterexample :
    "ultraviolet" ∉ ["emission", "absorption", "interferometric"] ∧
      generateSampleData Real.exp Real.sin (fun _ => 0) "ultraviolet" "none"
        ≠ Except.error JSError.InvalidArgument ∧
      generateSampleData Real.exp Real.sin (fun _ => 0) "ultraviolet" "none"
        = generateSampleData Real.exp Real.sin (fun _ => 0) "interferometric" "none" := by
  have h : generateSampleData Real.exp Real.sin (fun _ => 0) "ultraviolet" "none"
      = generateSampleData Real.exp Real.sin (fun _ => 0) "interferometric" "none" := by
    simp [generateSampleData, generateIntensities]
  refine ⟨by decide, ?_, h⟩
  obtain ⟨out, hout⟩ := applyFilter_ok Real.exp
    (generateIntensities Real.exp Real.sin (fun _ => 0) "ultraviolet") "none"
  simp only [generateSampleData, hout]
  exact fun hc => Except.noConfusion hc

/-- C10, amended: for every spectrum type other than 'emission' and
'absorption' (so for 'interferometric' and for every unrecognised value alike)
the generator uses the interferometric formula `50 + 30 sin(0.1 w) + 3 noise`
and returns chart data on the fixed wavelength axis; it does not fail. -/
theorem generateSampleData_default (exp sin : α → α) (random : Nat → α)
    (spectrumType filterAlgorithm : String)
    (he : spectrumType ≠ "emission") (ha : spectrumType ≠ "absorption") :
    generateIntensities exp sin random spectrumType
        = (wavelengths : List α).mapIdx
            (fun k w => 50 + 30 * sin (0.1 * w) + random k * 3) ∧
      ∃ chart, generateSampleData exp sin random spectrumType filterAlgorithm
          = Except.ok chart ∧ chart.labels = wavelengths ∧
        generateSampleData exp sin random "interferometric" filterAlgorithm
          = Except.ok chart := by
  have hint : generateIntensities exp sin random spectrumType
      = generateIntensities exp sin random "interferometric" := by
    simp [generateIntensities, he, ha]
  refine ⟨by simp [generateIntensities, he, ha], ?_⟩
  obtain ⟨out, hout⟩ := applyFilter_ok exp
    (generateIntensities exp sin random "interferometric") filterAlgorithm
  refine ⟨⟨wavelengths, out, "rgb(75, 192, 192)"⟩, ?_, rfl, ?_⟩
  · simp [generateSampleData, hint, hout, he, ha]
  · simp [generateSampleData, hout]

/-- Instance of the amended C10 for the spectrum type 'raman'. -/
theorem generateSampleData_default_witness :
    ("raman" ≠ "emission" ∧ "raman" ≠ "absorption") ∧
      (generateIntensities Real.exp Real.sin (fun _ => 0) "raman"
          = (wavelengths : List ℝ).mapIdx
              (fun k w => 50 + 30 * Real.sin (0.1 * w) + (fun _ => 0) k * 3) ∧
        ∃ chart, generateSampleData Real.exp Real.sin (fun _ => 0) "raman" "median"
            = Except.ok chart ∧ chart.labels = wavelengths ∧
          generateSampleData Real.exp Real.sin (fun _ => 0) "interferometric" "median"
            = Except.ok chart) :=
  ⟨⟨by decide, by decide⟩,
    generateSampleData_default Real.exp Real.sin (fun _ => 0) "raman" "median"
      (by decide) (by decide)⟩

end SpectralModule
